import Mathlib

/-!
Shallow embedding of the notebook
`intro-to-pytorch/Part 5 - Inference and Validation (Exercises).ipynb`.

Tensors are modelled as (nested) lists of exact scalars: the accuracy
cells, whose arithmetic is comparison, counting and one division, over ℚ;
the network forward passes, which use `exp`/`log` through `log_softmax`,
over ℝ.  A batch of rows is a `List` of rows; a row is a `List` of scalars.
-/

namespace Part5

/-! ### The accuracy cells (cells 7, 9, 11 and the validation loops)

`ps.topk(1, dim=1)` returns, per row, the largest entry and its index;
`equals = top_class == labels.view(*top_class.shape)` compares the top-1
index of each row with that row's label; the accuracy is the mean of the
Boolean results converted to floats. -/

/-- Index of the largest entry of a row, first index on ties: the index
component of `ps.topk(1, dim=1)` for one row. Running maximum `bv` at
index `best`, scanning the rest of the row from index `i`. -/
def argmaxAux : List ℚ → ℕ → ℕ → ℚ → ℕ
  | [], _, best, _ => best
  | a :: rest, i, best, bv =>
    if bv < a then argmaxAux rest (i + 1) i a
    else argmaxAux rest (i + 1) best bv

/-- `top_class` for a single row of class probabilities. -/
def topClass : List ℚ → ℕ
  | [] => 0
  | a :: rest => argmaxAux rest 1 0 a

/-- One entry of `equals.type(torch.FloatTensor)`: 1 when the top-1 index
matches the label, else 0. -/
def correctIndicator (row : List ℚ) (label : ℕ) : ℚ :=
  if topClass row = label then 1 else 0

/-- `torch.mean` of a list of scalars. -/
def meanQ (xs : List ℚ) : ℚ := xs.sum / xs.length

/-- The accuracy of one batch, as the accuracy cell computes it:
`torch.mean((top_class == labels.view(*top_class.shape)).type(torch.FloatTensor))`. -/
def batchAccuracy (ps : List (List ℚ)) (labels : List ℕ) : ℚ :=
  meanQ ((ps.zip labels).map fun rl => correctIndicator rl.1 rl.2)

/-- The number of examples of the batch whose top-1 index equals the label. -/
def countCorrect (ps : List (List ℚ)) (labels : List ℕ) : ℕ :=
  ((ps.zip labels).filter fun rl => topClass rl.1 == rl.2).length

/-- A test batch: the model's output rows paired with the label list. -/
abbrev TestBatch := List (List ℚ) × List ℕ

/-- The accumulated `accuracy` of the validation loop: the sum over test
batches of the per-batch mean accuracy. -/
def accuracySum (bs : List TestBatch) : ℚ :=
  (bs.map fun b => batchAccuracy b.1 b.2).sum

/-- The value printed each epoch: `accuracy.item() * 100 / len(testloader)`. -/
def printedAccuracy (bs : List TestBatch) : ℚ :=
  accuracySum bs * 100 / bs.length

/-- Total number of correctly classified examples over all test batches. -/
def totalCorrect (bs : List TestBatch) : ℕ :=
  (bs.map fun b => countCorrect b.1 b.2).sum

/-- Total number of examples over all test batches. -/
def totalExamples (bs : List TestBatch) : ℕ :=
  (bs.map fun b => b.1.length).sum

/-- Modelled from the claim's words: 100 times the fraction of examples in
the whole test set whose top-1 predicted class equals their true label. -/
def specTestAccuracy (bs : List TestBatch) : ℚ :=
  100 * totalCorrect bs / totalExamples bs

/-! ### The Classifier networks (cells 3 and 16) over ℝ -/

noncomputable section

/-- Dot product of a weight row with the input vector. -/
def dot : List ℝ → List ℝ → ℝ
  | [], _ => 0
  | _ :: _, [] => 0
  | a :: as, b :: bs => a * b + dot as bs

/-- nn.Linear with weight rows w and bias b: output j is ⟨w j, x⟩ + b j. -/
def linear (w : List (List ℝ)) (b : List ℝ) (x : List ℝ) : List ℝ :=
  (w.zip b).map fun rb => dot rb.1 x + rb.2

/-- F.relu applied elementwise. -/
def reluV (x : List ℝ) : List ℝ := x.map fun t => max t 0

/-- F.log_softmax along dim 1, on one row: entry i is x i − log Σ j, exp (x j). -/
def logSoftmax (x : List ℝ) : List ℝ :=
  x.map fun t => t - Real.log (x.map Real.exp).sum

/-- The parameters of a Classifier: weights and biases of fc1 through fc4. -/
structure Params where
  w1 : List (List ℝ)
  b1 : List ℝ
  w2 : List (List ℝ)
  b2 : List ℝ
  w3 : List (List ℝ)
  b3 : List ℝ
  w4 : List (List ℝ)
  b4 : List ℝ

/-- The shapes fixed in Classifier.__init__: fc1 = Linear(784, 256),
fc2 = Linear(256, 128), fc3 = Linear(128, 64), fc4 = Linear(64, 10);
nn.Linear(i, o) has an o × i weight and an o bias. -/
def Params.wellFormed (p : Params) : Prop :=
  p.w1.length = 256 ∧ (∀ r ∈ p.w1, r.length = 784) ∧ p.b1.length = 256 ∧
  p.w2.length = 128 ∧ (∀ r ∈ p.w2, r.length = 256) ∧ p.b2.length = 128 ∧
  p.w3.length = 64 ∧ (∀ r ∈ p.w3, r.length = 128) ∧ p.b3.length = 64 ∧
  p.w4.length = 10 ∧ (∀ r ∈ p.w4, r.length = 64) ∧ p.b4.length = 10

/-- Classifier.forward (cell 3, no dropout) on one flattened example:
relu after fc1, fc2, fc3, then log_softmax after fc4. -/
def forwardFlat (p : Params) (x : List ℝ) : List ℝ :=
  logSoftmax (linear p.w4 p.b4 (reluV (linear p.w3 p.b3
    (reluV (linear p.w2 p.b2 (reluV (linear p.w1 p.b1 x)))))))

/-- x.view(x.shape[0], -1): flatten one 2-D example to a feature vector. -/
def flattenImage (img : List (List ℝ)) : List ℝ := img.flatten

/-- Classifier.forward (cell 3) on a batch of 2-D images. -/
def forwardBatch (p : Params) (imgs : List (List (List ℝ))) : List (List ℝ) :=
  imgs.map fun img => forwardFlat p (flattenImage img)

/-- nn.Dropout(p=0.2) applied with an explicit Bernoulli mask: in training
mode entry i is zeroed when the mask says so and scaled by 1/(1−p)
otherwise (inverted dropout); in eval mode the module is the identity. -/
def dropout (training : Bool) (prob : ℝ) (mask : List Bool) (x : List ℝ) : List ℝ :=
  if training then
    (x.zip mask).map fun xm => if xm.2 then 0 else xm.1 / (1 - prob)
  else x

/-- The dropout Classifier's forward (cell 16) on one flattened example:
`training` is the mode set by model.train() / model.eval(); m1, m2, m3 are
the masks the three dropout applications would draw in training mode. -/
def dropoutForwardFlat (training : Bool) (m1 m2 m3 : List Bool)
    (p : Params) (x : List ℝ) : List ℝ :=
  logSoftmax (linear p.w4 p.b4
    (dropout training (1/5) m3 (reluV (linear p.w3 p.b3
      (dropout training (1/5) m2 (reluV (linear p.w2 p.b2
        (dropout training (1/5) m1 (reluV (linear p.w1 p.b1 x))))))))))

/-- The dropout Classifier's forward (cell 16) on a batch: `masks i` gives
the three masks drawn for the i-th example of the batch. -/
def dropoutForwardBatch (training : Bool)
    (masks : ℕ → List Bool × List Bool × List Bool)
    (p : Params) (imgs : List (List (List ℝ))) : List (List ℝ) :=
  imgs.enum.map fun ix =>
    dropoutForwardFlat training (masks ix.1).1 (masks ix.1).2.1 (masks ix.1).2.2
      p (flattenImage ix.2)

/-- torch.exp applied to every entry of a batch of rows. -/
def expRows (xs : List (List ℝ)) : List (List ℝ) := xs.map (List.map Real.exp)

/-- All-zero parameters of the declared shapes, for concrete instantiation. -/
def zeroParams : Params where
  w1 := List.replicate 256 (List.replicate 784 0)
  b1 := List.replicate 256 0
  w2 := List.replicate 128 (List.replicate 256 0)
  b2 := List.replicate 128 0
  w3 := List.replicate 64 (List.replicate 128 0)
  b3 := List.replicate 64 0
  w4 := List.replicate 10 (List.replicate 64 0)
  b4 := List.replicate 10 0

/-- An all-zero 28 × 28 image. -/
def zeroImage : List (List ℝ) := List.replicate 28 (List.replicate 28 0)

end

/-! ### The order of operations in the training cells (cells 13 and 17) -/

/-- A forward pass recorded in the dropout training cell: a training-loop
forward or a validation-loop forward. -/
inductive Phase
  | trainFwd
  | valFwd
  deriving DecidableEq

/-- The forward passes of one epoch of cell 17, each with the module mode
(training?) under which it ran: the training batches run at the incoming
mode; model.eval() then sets the mode to false for the validation batches;
after the accuracy printout, model.train() leaves mode true for the next
epoch.  Returns the recorded events and the outgoing mode. -/
def epochForwards (nTrain nVal : ℕ) (mode : Bool) : List (Phase × Bool) × Bool :=
  (List.replicate nTrain (Phase.trainFwd, mode)
    ++ List.replicate nVal (Phase.valFwd, false), true)

/-- The forward passes of e epochs of cell 17, threading the module mode. -/
def loopForwards : ℕ → Bool → ℕ → ℕ → List (Phase × Bool)
  | 0, _, _, _ => []
  | e + 1, mode, nTrain, nVal =>
    (epochForwards nTrain nVal mode).1
      ++ loopForwards e (epochForwards nTrain nVal mode).2 nTrain nVal

/-- Cell 17: epochs = 10, on a freshly constructed model whose mode is
training = true (the nn.Module default). -/
def dropoutCellForwards (nTrain nVal : ℕ) : List (Phase × Bool) :=
  loopForwards 10 true nTrain nVal

/-- One operation performed by the training cell. -/
inductive Op
  | zeroGrad
  | forwardPass
  | nllLoss
  | backwardProp
  | adamUpdate
  | valPass
  | printAcc
  deriving DecidableEq

/-- The body of the inner training loop of cell 13, in source order:
optimizer.zero_grad(); log_ps = model(images); loss = criterion(log_ps,
labels); loss.backward(); optimizer.step(). -/
def trainBatchOps : List Op :=
  [Op.zeroGrad, Op.forwardPass, Op.nllLoss, Op.backwardProp, Op.adamUpdate]

/-- The inner training loop of cell 13 over n batches. -/
def runTrainBatches : ℕ → List Op
  | 0 => []
  | n + 1 => trainBatchOps ++ runTrainBatches n

/-- The epoch loop of cell 13: each epoch runs all its training batches,
then the for-else validation pass and the accuracy printout. -/
def runEpochs : ℕ → ℕ → List Op
  | 0, _ => []
  | e + 1, n => (runTrainBatches n ++ [Op.valPass, Op.printAcc]) ++ runEpochs e n

/-- Cell 13 sets epochs = 10. -/
def trainingCellOps (n : ℕ) : List Op := runEpochs 10 n

/-- Cell 13 constructs the optimizer as optim.Adam(model.parameters(),
lr=0.003). -/
def adamLearningRate : ℚ := 3 / 1000

/-- Modelled from the claim's words: ten epochs; in each, every batch
performs zero-grad, forward, NLL loss, backward and exactly one optimizer
step, in that order, and one validation pass with its printout follows all
of the epoch's training batches. -/
def specTrainingOps (n : ℕ) : List Op :=
  (List.replicate 10
    ((List.replicate n
        [Op.zeroGrad, Op.forwardPass, Op.nllLoss, Op.backwardProp,
          Op.adamUpdate]).flatten
      ++ [Op.valPass, Op.printAcc])).flatten

/-! ### The inference cell (cell 19) and the validation-pass frame -/

noncomputable section

/-- tensor.view(m, k, k) on a flat row: split into consecutive rows of
length k. -/
def chunkList : ℕ → List ℝ → List (List ℝ)
  | _, [] => []
  | 0, _ :: _ => []
  | k + 1, a :: t =>
    ((a :: t).take (k + 1)) :: chunkList (k + 1) ((a :: t).drop (k + 1))
termination_by _k x => x.length
decreasing_by
  simp only [List.length_drop, List.length_cons]
  omega

/-- Cell 19, the single-sample inference cell: img = images[0] viewed as
(1, 784); output = model.forward(img) with the model in eval mode under
torch.no_grad(); ps = torch.exp(output); the cell then calls
helper.view_classify(img.view(1, 28, 28), ps).  The returned pair is the
two tensor arguments of that call.  masks is the randomness the dropout
modules would consume in training mode; eval mode ignores it. -/
def inferenceCellArgs (masks : ℕ → List Bool × List Bool × List Bool)
    (p : Params) (images : List (List (List ℝ))) :
    List (List (List ℝ)) × List (List ℝ) :=
  let img : List ℝ := flattenImage images.headI
  let output : List (List ℝ) := dropoutForwardBatch false masks p [[img]]
  let ps : List (List ℝ) := expRows output
  ([chunkList 28 img], ps)

/-- Index of the largest entry of a real row, first index on ties
(ps.topk(1, dim=1) in the validation loop, where ps is real-valued). -/
def argmaxAuxR : List ℝ → ℕ → ℕ → ℝ → ℕ
  | [], _, best, _ => best
  | a :: rest, i, best, bv =>
    if bv < a then argmaxAuxR rest (i + 1) i a
    else argmaxAuxR rest (i + 1) best bv

/-- top_class for one real row. -/
def topClassR : List ℝ → ℕ
  | [] => 0
  | a :: rest => argmaxAuxR rest 1 0 a

/-- One entry of equals.type(torch.FloatTensor) in the validation loop. -/
def correctIndicatorR (row : List ℝ) (label : ℕ) : ℝ :=
  if topClassR row = label then 1 else 0

/-- torch.mean of a real list. -/
def meanR (xs : List ℝ) : ℝ := xs.sum / xs.length

/-- The validation loop's per-batch mean accuracy, over ℝ. -/
def batchAccuracyR (ps : List (List ℝ)) (labels : List ℕ) : ℝ :=
  meanR ((ps.zip labels).map fun rl => correctIndicatorR rl.1 rl.2)

/-- The mutable state of a training cell: the model parameters, the Adam
optimizer's internal buffers (first and second moments, abstract), and the
epoch's accuracy accumulator. -/
structure LoopState where
  params : Params
  optMoments : List ℝ × List ℝ
  accuracy : ℝ

/-- One iteration of the validation loop (cells 13 and 17): compute the
class probabilities of one test batch from the current parameters, compare
top-1 indices with the labels, and add the batch's mean accuracy to the
accumulator.  It runs under torch.no_grad() and calls neither
loss.backward() nor optimizer.step(); fwd is the model's forward (in the
dropout cell, the eval-mode forward). -/
def valStep (fwd : Params → List (List (List ℝ)) → List (List ℝ))
    (s : LoopState) (batch : List (List (List ℝ)) × List ℕ) : LoopState :=
  { s with accuracy := s.accuracy
      + batchAccuracyR (expRows (fwd s.params batch.1)) batch.2 }

/-- The whole validation pass of one epoch: accuracy = 0, then the loop
over the test loader. -/
def validationPass (fwd : Params → List (List (List ℝ)) → List (List ℝ))
    (s : LoopState) (testBatches : List (List (List (List ℝ)) × List ℕ)) :
    LoopState :=
  testBatches.foldl (valStep fwd) { s with accuracy := 0 }

end


/-! ## Theorems -/

/-! Helper lemmas for the accuracy claims. -/

theorem sum_correctIndicator (l : List (List ℚ × ℕ)) :
    (l.map fun rl => correctIndicator rl.1 rl.2).sum
      = ((l.filter fun rl => topClass rl.1 == rl.2).length : ℚ) := by
  induction l with
  | nil => simp
  | cons a t ih =>
    rw [List.map_cons, List.sum_cons, ih, List.filter_cons]
    by_cases h : topClass a.1 = a.2
    · simp only [correctIndicator, h, if_true, beq_iff_eq, List.length_cons]
      push_cast
      ring
    · simp [correctIndicator, h]

theorem batchAccuracy_eq_div (ps : List (List ℚ)) (labels : List ℕ)
    (hlen : ps.length = labels.length) :
    batchAccuracy ps labels = (countCorrect ps labels : ℚ) / (ps.length : ℚ) := by
  unfold batchAccuracy countCorrect meanQ
  rw [sum_correctIndicator]
  congr 1
  simp [List.length_zip, hlen]

theorem accuracySum_uniform (bs : List TestBatch) (k : ℕ)
    (hsz : ∀ b ∈ bs, b.1.length = k ∧ b.2.length = k) :
    accuracySum bs = (totalCorrect bs : ℚ) / (k : ℚ) := by
  induction bs with
  | nil => simp [accuracySum, totalCorrect]
  | cons b t ih =>
    have hb := hsz b (List.mem_cons_self b t)
    have hlen : b.1.length = b.2.length := by rw [hb.1, hb.2]
    have ht := ih fun x hx => hsz x (List.mem_cons_of_mem b hx)
    show (batchAccuracy b.1 b.2) + accuracySum t = _
    rw [batchAccuracy_eq_div b.1 b.2 hlen, ht]
    have : totalCorrect (b :: t) = countCorrect b.1 b.2 + totalCorrect t := rfl
    rw [this, hb.1]
    push_cast
    ring

theorem totalExamples_uniform (bs : List TestBatch) (k : ℕ)
    (hsz : ∀ b ∈ bs, b.1.length = k) :
    totalExamples bs = k * bs.length := by
  induction bs with
  | nil => simp [totalExamples]
  | cons b t ih =>
    have hb := hsz b (List.mem_cons_self b t)
    have ht := ih fun x hx => hsz x (List.mem_cons_of_mem b hx)
    show b.1.length + totalExamples t = _
    rw [hb, ht, List.length_cons]
    ring

/-- C2: for a batch of N output rows and N labels, the accuracy computed by
the cell — comparing the top-1 index of each row with its label, converting
to floats and taking the mean — equals the number of examples whose top-1
index equals the label, divided by N. -/
theorem C2_batchAccuracy_eq_fraction (ps : List (List ℚ)) (labels : List ℕ)
    (hlen : ps.length = labels.length) (_hpos : 0 < ps.length) :
    batchAccuracy ps labels = (countCorrect ps labels : ℚ) / (ps.length : ℚ) :=
  batchAccuracy_eq_div ps labels hlen

theorem C2_batchAccuracy_eq_fraction_witness :
    ([[(0:ℚ),0,0,1,0,0,0,0,0,0], [1,0,0,0,0,0,0,0,0,0]].length = [3, 3].length
        ∧ 0 < [[(0:ℚ),0,0,1,0,0,0,0,0,0], [1,0,0,0,0,0,0,0,0,0]].length)
      ∧ batchAccuracy [[(0:ℚ),0,0,1,0,0,0,0,0,0], [1,0,0,0,0,0,0,0,0,0]] [3, 3]
          = (countCorrect [[(0:ℚ),0,0,1,0,0,0,0,0,0], [1,0,0,0,0,0,0,0,0,0]] [3, 3] : ℚ)
              / (([[(0:ℚ),0,0,1,0,0,0,0,0,0], [1,0,0,0,0,0,0,0,0,0]].length : ℕ) : ℚ) :=
  ⟨⟨by simp, by simp⟩,
    C2_batchAccuracy_eq_fraction _ _ (by simp) (by simp)⟩

/-- C1 counterexample: with test batches of unequal sizes, the printed
value (sum of per-batch mean accuracies, times 100, divided by the number
of batches) differs from 100 times the fraction of all test examples
classified correctly.  Here batch 1 has one example (correct) and batch 2
has two examples (both wrong): printed 50, true test-set accuracy 100/3. -/
theorem C1_counterexample :
    printedAccuracy
        [([[(0:ℚ),0,0,1,0,0,0,0,0,0]], [3]),
         ([[(1:ℚ),0,0,0,0,0,0,0,0,0], [1,0,0,0,0,0,0,0,0,0]], [3, 3])]
      ≠ specTestAccuracy
        [([[(0:ℚ),0,0,1,0,0,0,0,0,0]], [3]),
         ([[(1:ℚ),0,0,0,0,0,0,0,0,0], [1,0,0,0,0,0,0,0,0,0]], [3, 3])] := by
  norm_num [printedAccuracy, specTestAccuracy, accuracySum, totalCorrect,
    totalExamples, batchAccuracy, countCorrect, meanQ, correctIndicator,
    topClass, argmaxAux]

/-- C1 (amended): the printed accuracy is the sum of per-batch mean
accuracies times 100 divided by the number of test batches; when every
test batch has the same positive size it equals 100 times the fraction of
examples in the whole test set whose top-1 predicted class equals their
true label. -/
theorem C1_printedAccuracy_eq_spec_of_uniform (bs : List TestBatch) (k : ℕ)
    (hk : 0 < k) (hne : bs ≠ [])
    (hsz : ∀ b ∈ bs, b.1.length = k ∧ b.2.length = k) :
    printedAccuracy bs = specTestAccuracy bs := by
  have hB : 0 < bs.length := List.length_pos.mpr hne
  rw [printedAccuracy, specTestAccuracy,
    accuracySum_uniform bs k hsz,
    totalExamples_uniform bs k fun b hb => (hsz b hb).1]
  have hkQ : (k : ℚ) ≠ 0 := by positivity
  have hBQ : (bs.length : ℚ) ≠ 0 := by positivity
  push_cast
  field_simp
  ring

theorem C1_printedAccuracy_eq_spec_of_uniform_witness :
    (0 < 1 ∧ ([([[(0:ℚ),0,0,1,0,0,0,0,0,0]], [3]),
               ([[(1:ℚ),0,0,0,0,0,0,0,0,0]], [3])] : List TestBatch) ≠ []
      ∧ ∀ b ∈ ([([[(0:ℚ),0,0,1,0,0,0,0,0,0]], [3]),
                ([[(1:ℚ),0,0,0,0,0,0,0,0,0]], [3])] : List TestBatch),
          b.1.length = 1 ∧ b.2.length = 1)
    ∧ printedAccuracy
        [([[(0:ℚ),0,0,1,0,0,0,0,0,0]], [3]),
         ([[(1:ℚ),0,0,0,0,0,0,0,0,0]], [3])]
      = specTestAccuracy
        [([[(0:ℚ),0,0,1,0,0,0,0,0,0]], [3]),
         ([[(1:ℚ),0,0,0,0,0,0,0,0,0]], [3])] :=
  ⟨⟨Nat.one_pos, by simp, by simp⟩,
    C1_printedAccuracy_eq_spec_of_uniform _ 1 Nat.one_pos (by simp) (by simp)⟩

/-! Helper lemmas for the network claims. -/

theorem dropout_eval (prob : ℝ) (mask : List Bool) (x : List ℝ) :
    dropout false prob mask x = x := rfl

theorem dropoutForwardFlat_eval (m1 m2 m3 : List Bool) (p : Params) (x : List ℝ) :
    dropoutForwardFlat false m1 m2 m3 p x = forwardFlat p x := rfl

theorem enumFrom_map_snd {α β : Type} (g : α → β) :
    ∀ (n : ℕ) (l : List α), (List.enumFrom n l).map (fun ix => g ix.2) = l.map g
  | _, [] => rfl
  | n, a :: t => by
    simp only [List.enumFrom, List.map_cons]
    rw [enumFrom_map_snd g (n + 1) t]

theorem dropoutBatch_eval_eq (masks : ℕ → List Bool × List Bool × List Bool)
    (p : Params) (imgs : List (List (List ℝ))) :
    dropoutForwardBatch false masks p imgs = forwardBatch p imgs := by
  unfold dropoutForwardBatch forwardBatch
  simp only [dropoutForwardFlat_eval]
  exact enumFrom_map_snd (fun img => forwardFlat p (flattenImage img)) 0 imgs

theorem length_linear (w : List (List ℝ)) (b : List ℝ) (x : List ℝ) :
    (linear w b x).length = min w.length b.length := by
  simp [linear]

theorem length_reluV (x : List ℝ) : (reluV x).length = x.length := by
  simp [reluV]

theorem length_logSoftmax (x : List ℝ) : (logSoftmax x).length = x.length := by
  simp [logSoftmax]

theorem length_forwardFlat (p : Params) (hp : p.wellFormed) (x : List ℝ) :
    (forwardFlat p x).length = 10 := by
  obtain ⟨_, _, _, _, _, _, _, _, _, h4, _, h4b⟩ := hp
  simp [forwardFlat, length_logSoftmax, length_linear, h4, h4b]

theorem length_flattenImage (img : List (List ℝ))
    (hrows : img.length = 28) (hcols : ∀ r ∈ img, r.length = 28) :
    (flattenImage img).length = 784 := by
  unfold flattenImage
  rw [List.length_flatten]
  have : img.map List.length = List.replicate 28 28 := by
    rw [List.eq_replicate_iff]
    constructor
    · simp [hrows]
    · intro b hb
      obtain ⟨r, hr, rfl⟩ := List.mem_map.mp hb
      exact hcols r hr
  rw [this, List.sum_replicate]
  norm_num

theorem sum_exp_logSoftmax (x : List ℝ) (hx : x ≠ []) :
    ((logSoftmax x).map Real.exp).sum = 1 := by
  have hS : 0 < (x.map Real.exp).sum := by
    refine List.sum_pos _ (fun y hy => ?_) (by simpa using hx)
    obtain ⟨t, _, rfl⟩ := List.mem_map.mp hy
    exact Real.exp_pos t
  have hmap : (logSoftmax x).map Real.exp
      = x.map fun t => Real.exp t * ((x.map Real.exp).sum)⁻¹ := by
    simp [logSoftmax, List.map_map, Function.comp_def, Real.exp_sub,
      Real.exp_log hS, div_eq_mul_inv]
  rw [hmap, List.sum_map_mul_right]
  exact mul_inv_cancel₀ hS.ne'

/-- C3: for identical weights and biases on fc1 through fc4, the dropout
Classifier in eval mode (dropout acting as the identity) computes exactly
the same output as the no-dropout Classifier, on every batch of images and
whatever masks the dropout modules would have drawn. -/
theorem C3_dropout_eval_eq_noDropout (p : Params)
    (masks : ℕ → List Bool × List Bool × List Bool)
    (imgs : List (List (List ℝ))) :
    dropoutForwardBatch false masks p imgs = forwardBatch p imgs :=
  dropoutBatch_eval_eq masks p imgs

/-- C9: in eval mode the forward pass is deterministic: its result does
not depend on the dropout randomness, so two runs with the same parameters
and input (and any two mask draws) produce identical outputs. -/
theorem C9_eval_forward_deterministic (p : Params)
    (masksA masksB : ℕ → List Bool × List Bool × List Bool)
    (imgs : List (List (List ℝ))) :
    dropoutForwardBatch false masksA p imgs
      = dropoutForwardBatch false masksB p imgs := by
  rw [dropoutBatch_eval_eq, dropoutBatch_eval_eq]

/-- C5: with the shapes declared in Classifier.__init__ and 28 × 28 input
images, the forward pass flattens every example to 784 features, returns
one output row per input example, and every output row has 10 entries. -/
theorem C5_forward_shapes (p : Params) (hp : p.wellFormed)
    (imgs : List (List (List ℝ)))
    (himgs : ∀ img ∈ imgs, img.length = 28 ∧ ∀ r ∈ img, r.length = 28) :
    (∀ img ∈ imgs, (flattenImage img).length = 784)
      ∧ (forwardBatch p imgs).length = imgs.length
      ∧ ∀ row ∈ forwardBatch p imgs, row.length = 10 := by
  refine ⟨fun img himg => ?_, by simp [forwardBatch], fun row hrow => ?_⟩
  · exact length_flattenImage img (himgs img himg).1 (himgs img himg).2
  · obtain ⟨img, _, rfl⟩ := List.mem_map.mp hrow
    exact length_forwardFlat p hp _

/-- C10: applying torch.exp to the Classifier's output yields, for every
example of every batch, a row of 10 nonnegative entries summing to 1,
because the forward pass ends with log_softmax over dim 1. -/
theorem C10_exp_forward_is_distribution (p : Params) (hp : p.wellFormed)
    (imgs : List (List (List ℝ))) :
    ∀ row ∈ expRows (forwardBatch p imgs),
      (∀ v ∈ row, 0 ≤ v) ∧ row.sum = 1 := by
  intro row hrow
  obtain ⟨orow, horow, rfl⟩ := List.mem_map.mp hrow
  obtain ⟨img, _, rfl⟩ := List.mem_map.mp horow
  constructor
  · intro v hv
    obtain ⟨t, _, rfl⟩ := List.mem_map.mp hv
    exact (Real.exp_pos t).le
  · have h10 : (linear p.w4 p.b4 (reluV (linear p.w3 p.b3
        (reluV (linear p.w2 p.b2
          (reluV (linear p.w1 p.b1 (flattenImage img)))))))).length = 10 := by
      obtain ⟨_, _, _, _, _, _, _, _, _, h4, _, h4b⟩ := hp
      simp [length_linear, h4, h4b]
    exact sum_exp_logSoftmax _ (by
      intro hnil
      rw [hnil] at h10
      simp at h10)

theorem zeroParams_wellFormed : zeroParams.wellFormed := by
  refine ⟨?_, fun r hr => ?_, ?_, ?_, fun r hr => ?_, ?_,
          ?_, fun r hr => ?_, ?_, ?_, fun r hr => ?_, ?_⟩ <;>
    first
      | exact List.length_replicate _ _
      | rw [(List.mem_replicate.mp hr).2]; exact List.length_replicate _ _

theorem zeroImage_shape :
    zeroImage.length = 28 ∧ ∀ r ∈ zeroImage, r.length = 28 := by
  refine ⟨List.length_replicate _ _, fun r hr => ?_⟩
  rw [(List.mem_replicate.mp hr).2]
  exact List.length_replicate _ _

theorem C5_forward_shapes_witness :
    (zeroParams.wellFormed
      ∧ ∀ img ∈ [zeroImage], img.length = 28 ∧ ∀ r ∈ img, r.length = 28)
    ∧ ((∀ img ∈ [zeroImage], (flattenImage img).length = 784)
      ∧ (forwardBatch zeroParams [zeroImage]).length = [zeroImage].length
      ∧ ∀ row ∈ forwardBatch zeroParams [zeroImage], row.length = 10) :=
  ⟨⟨zeroParams_wellFormed,
    by
      intro img himg
      rw [List.mem_singleton.mp himg]
      exact zeroImage_shape⟩,
   C5_forward_shapes zeroParams zeroParams_wellFormed [zeroImage]
     (by
       intro img himg
       rw [List.mem_singleton.mp himg]
       exact zeroImage_shape)⟩

theorem C10_exp_forward_is_distribution_witness :
    zeroParams.wellFormed
    ∧ ∀ row ∈ expRows (forwardBatch zeroParams [zeroImage]),
        (∀ v ∈ row, 0 ≤ v) ∧ row.sum = 1 :=
  ⟨zeroParams_wellFormed,
   C10_exp_forward_is_distribution zeroParams zeroParams_wellFormed [zeroImage]⟩

/-! Trace lemmas and the temporal/order claims. -/

theorem loopForwards_modes (nTrain nVal : ℕ) :
    ∀ (e : ℕ) (ev : Phase × Bool), ev ∈ loopForwards e true nTrain nVal →
      (ev.1 = Phase.valFwd → ev.2 = false) ∧ (ev.1 = Phase.trainFwd → ev.2 = true)
  | 0, ev, h => by simp [loopForwards] at h
  | e + 1, ev, h => by
    rw [loopForwards] at h
    rcases List.mem_append.mp h with h1 | h2
    · rcases List.mem_append.mp h1 with ha | hb
      · rw [List.eq_of_mem_replicate ha]
        exact ⟨fun hv => by simp at hv, fun _ => rfl⟩
      · rw [List.eq_of_mem_replicate hb]
        exact ⟨fun _ => rfl, fun ht => by simp at ht⟩
    · exact loopForwards_modes nTrain nVal e ev h2

/-- C4: in the dropout training cell, dropout is never active during a
validation forward pass and always active during a training forward pass:
the model is in eval mode (training = false) at every validation-loop
forward and in train mode (training = true) at every training-loop
forward, for all ten epochs. -/
theorem C4_dropout_mode_discipline (nTrain nVal : ℕ) (ev : Phase × Bool)
    (hev : ev ∈ dropoutCellForwards nTrain nVal) :
    (ev.1 = Phase.valFwd → ev.2 = false)
      ∧ (ev.1 = Phase.trainFwd → ev.2 = true) :=
  loopForwards_modes nTrain nVal 10 ev hev

theorem C4_dropout_mode_discipline_witness :
    (Phase.valFwd, false) ∈ dropoutCellForwards 1 1
      ∧ (((Phase.valFwd, false) : Phase × Bool).1 = Phase.valFwd
            → ((Phase.valFwd, false) : Phase × Bool).2 = false)
      ∧ (((Phase.valFwd, false) : Phase × Bool).1 = Phase.trainFwd
            → ((Phase.valFwd, false) : Phase × Bool).2 = true) := by
  refine ⟨by decide, ?_⟩
  exact C4_dropout_mode_discipline 1 1 (Phase.valFwd, false) (by decide)

theorem runTrainBatches_eq_spec (n : ℕ) :
    runTrainBatches n = (List.replicate n trainBatchOps).flatten := by
  induction n with
  | zero => rfl
  | succ n ih => rw [runTrainBatches, ih, List.replicate_succ, List.flatten_cons]

theorem runEpochs_eq_spec (e n : ℕ) :
    runEpochs e n
      = (List.replicate e
          (runTrainBatches n ++ [Op.valPass, Op.printAcc])).flatten := by
  induction e with
  | zero => rfl
  | succ e ih => rw [runEpochs, ih, List.replicate_succ, List.flatten_cons]

theorem runTrainBatches_count_adam (n : ℕ) :
    (runTrainBatches n).count Op.adamUpdate = n := by
  induction n with
  | zero => rfl
  | succ n ih =>
    rw [runTrainBatches, List.count_append, ih]
    have h : trainBatchOps.count Op.adamUpdate = 1 := by decide
    rw [h]
    omega

theorem runTrainBatches_count_val (n : ℕ) :
    (runTrainBatches n).count Op.valPass = 0 := by
  induction n with
  | zero => rfl
  | succ n ih =>
    rw [runTrainBatches, List.count_append, ih]
    have h : trainBatchOps.count Op.valPass = 0 := by decide
    rw [h]

theorem runEpochs_count_adam (e n : ℕ) :
    (runEpochs e n).count Op.adamUpdate = e * n := by
  induction e with
  | zero => simp [runEpochs]
  | succ e ih =>
    rw [runEpochs, List.count_append, List.count_append, ih,
      runTrainBatches_count_adam]
    have : [Op.valPass, Op.printAcc].count Op.adamUpdate = 0 := by decide
    rw [this]
    ring

theorem runEpochs_count_val (e n : ℕ) :
    (runEpochs e n).count Op.valPass = e := by
  induction e with
  | zero => rfl
  | succ e ih =>
    rw [runEpochs, List.count_append, List.count_append, ih,
      runTrainBatches_count_val]
    have : [Op.valPass, Op.printAcc].count Op.valPass = 1 := by decide
    rw [this]
    ring

/-- C6: the training cell's trace is, per epoch and in this order, for
every one of its n batches: zero the gradients, forward pass, NLL loss of
the log-probabilities, backpropagation, exactly one Adam optimizer step
(the optimizer is built with learning rate 0.003, recorded as
adamLearningRate); then exactly one validation pass with its accuracy
printout after all of that epoch's training batches; ten epochs in all:
the trace equals the spec-shaped trace, the number of optimizer steps is
one per batch (10·n over the run), and the validation pass runs exactly
once per epoch (10 times over the run). -/
theorem C6_training_cell_order (n : ℕ) :
    trainingCellOps n = specTrainingOps n
      ∧ (trainingCellOps n).count Op.adamUpdate = 10 * n
      ∧ (trainingCellOps n).count Op.valPass = 10 := by
  refine ⟨?_, ?_, ?_⟩
  · rw [trainingCellOps, runEpochs_eq_spec, runTrainBatches_eq_spec,
      specTrainingOps, trainBatchOps]
  · rw [trainingCellOps, runEpochs_count_adam]
  · rw [trainingCellOps, runEpochs_count_val]

/-! Lemmas for the inference cell and the frame claim. -/

theorem chunkList_flatten :
    ∀ (k : ℕ) (x : List ℝ), (chunkList (k + 1) x).flatten = x
  | _, [] => by rw [chunkList]; rfl
  | k, a :: t => by
    rw [chunkList]
    rw [List.flatten_cons]
    rw [chunkList_flatten k ((a :: t).drop (k + 1))]
    exact List.take_append_drop (k + 1) (a :: t)
termination_by _k x => x.length
decreasing_by
  simp only [List.length_drop, List.length_cons]
  omega

theorem chunkList_shape :
    ∀ (m : ℕ) (k : ℕ) (x : List ℝ), x.length = (k + 1) * m →
      (chunkList (k + 1) x).length = m
        ∧ ∀ r ∈ chunkList (k + 1) x, r.length = k + 1 := by
  intro m
  induction m with
  | zero =>
    intro k x hx
    have : x = [] := List.eq_nil_of_length_eq_zero (by omega)
    subst this
    rw [chunkList]
    simp
  | succ m ih =>
    intro k x hx
    obtain ⟨a, t, rfl⟩ : ∃ a t, x = a :: t := by
      cases x with
      | nil => exact absurd hx.symm (Nat.ne_of_gt (Nat.mul_pos k.succ_pos m.succ_pos))
      | cons a t => exact ⟨a, t, rfl⟩
    rw [chunkList]
    have hdrop : ((a :: t).drop (k + 1)).length = (k + 1) * m := by
      simp only [List.length_drop, List.length_cons]
      simp only [List.length_cons] at hx
      have : (k + 1) * (m + 1) = (k + 1) * m + (k + 1) := by ring
      omega
    obtain ⟨hlen, hrows⟩ := ih k _ hdrop
    refine ⟨by rw [List.length_cons, hlen], fun r hr => ?_⟩
    rcases List.mem_cons.mp hr with h | h
    · subst h
      simp only [List.length_take, List.length_cons]
      simp only [List.length_cons] at hx
      have : (k + 1) * (m + 1) = (k + 1) * m + (k + 1) := by ring
      omega
    · exact hrows r h

theorem foldl_valStep_frame (fwd : Params → List (List (List ℝ)) → List (List ℝ)) :
    ∀ (bs : List (List (List (List ℝ)) × List ℕ)) (s : LoopState),
      (bs.foldl (valStep fwd) s).params = s.params
        ∧ (bs.foldl (valStep fwd) s).optMoments = s.optMoments
  | [], _ => ⟨rfl, rfl⟩
  | b :: t, s => by
    rw [List.foldl_cons]
    have h := foldl_valStep_frame fwd t (valStep fwd s b)
    exact ⟨h.1.trans rfl, h.2.trans rfl⟩

/-- C8: every validation pass leaves the model and the optimizer
unchanged: it runs under torch.no_grad() and never calls
optimizer.step() or loss.backward(), so after the pass every model
parameter (the weights and biases of fc1 through fc4) and the optimizer's
internal state equal their values before the pass, whatever the forward
function, the prior state and the test batches. -/
theorem C8_validation_pass_frame
    (fwd : Params → List (List (List ℝ)) → List (List ℝ))
    (s : LoopState) (testBatches : List (List (List (List ℝ)) × List ℕ)) :
    (validationPass fwd s testBatches).params = s.params
      ∧ (validationPass fwd s testBatches).optMoments = s.optMoments := by
  unfold validationPass
  exact foldl_valStep_frame fwd testBatches { s with accuracy := 0 }

theorem flattenImage_single (v : List ℝ) : flattenImage [v] = v := by
  simp [flattenImage]

/-- C7: the single-sample inference cell takes the first image of the test
batch, flattens it to shape (1, 784), computes the eval-mode forward
output under no_grad, and exponentiates it into class probabilities of
shape (1, 10): the probabilities it passes to helper.view_classify equal
exp of the Classifier forward on the flattened first image, one row of 10
entries, and the image argument has shape (1, 28, 28) and flattens back to
the same 784 features that were fed to the model. -/
theorem C7_inference_cell_behaviour
    (masks : ℕ → List Bool × List Bool × List Bool) (p : Params)
    (hp : p.wellFormed) (images : List (List (List ℝ)))
    (hshape : images.headI.length = 28 ∧ ∀ r ∈ images.headI, r.length = 28) :
    (inferenceCellArgs masks p images).2
        = expRows [forwardFlat p (flattenImage images.headI)]
      ∧ (inferenceCellArgs masks p images).2.length = 1
      ∧ (∀ row ∈ (inferenceCellArgs masks p images).2, row.length = 10)
      ∧ (inferenceCellArgs masks p images).1.length = 1
      ∧ (inferenceCellArgs masks p images).1.headI.length = 28
      ∧ (∀ r ∈ (inferenceCellArgs masks p images).1.headI, r.length = 28)
      ∧ (inferenceCellArgs masks p images).1.headI.flatten
          = flattenImage images.headI := by
  have hv784 : (flattenImage images.headI).length = 784 :=
    length_flattenImage _ hshape.1 hshape.2
  have hsnd : (inferenceCellArgs masks p images).2
      = expRows [forwardFlat p (flattenImage images.headI)] := by
    show expRows (dropoutForwardBatch false masks p [[flattenImage images.headI]]) = _
    rw [dropoutBatch_eval_eq]
    show expRows [forwardFlat p (flattenImage [flattenImage images.headI])] = _
    rw [flattenImage_single]
  have hchunk := chunkList_shape 28 27 (flattenImage images.headI)
    (by rw [hv784])
  refine ⟨hsnd, ?_, ?_, rfl, hchunk.1, hchunk.2, ?_⟩
  · rw [hsnd]
    rfl
  · intro row hrow
    rw [hsnd] at hrow
    rcases List.mem_singleton.mp hrow with h
    rw [h, List.length_map]
    exact length_forwardFlat p hp _
  · exact chunkList_flatten 27 (flattenImage images.headI)

theorem C7_inference_cell_behaviour_witness :
    (zeroParams.wellFormed
      ∧ ([zeroImage] : List (List (List ℝ))).headI.length = 28
      ∧ (∀ r ∈ ([zeroImage] : List (List (List ℝ))).headI, r.length = 28))
    ∧ ((inferenceCellArgs (fun _ => ([], [], [])) zeroParams [zeroImage]).2
          = expRows [forwardFlat zeroParams
              (flattenImage ([zeroImage] : List (List (List ℝ))).headI)]
        ∧ (inferenceCellArgs (fun _ => ([], [], [])) zeroParams [zeroImage]).2.length = 1
        ∧ (∀ row ∈ (inferenceCellArgs (fun _ => ([], [], [])) zeroParams [zeroImage]).2,
              row.length = 10)
        ∧ (inferenceCellArgs (fun _ => ([], [], [])) zeroParams [zeroImage]).1.length = 1
        ∧ (inferenceCellArgs (fun _ => ([], [], [])) zeroParams [zeroImage]).1.headI.length = 28
        ∧ (∀ r ∈ (inferenceCellArgs (fun _ => ([], [], [])) zeroParams [zeroImage]).1.headI,
              r.length = 28)
        ∧ (inferenceCellArgs (fun _ => ([], [], [])) zeroParams [zeroImage]).1.headI.flatten
            = flattenImage ([zeroImage] : List (List (List ℝ))).headI) :=
  ⟨⟨zeroParams_wellFormed, zeroImage_shape.1, zeroImage_shape.2⟩,
    C7_inference_cell_behaviour (fun _ => ([], [], [])) zeroParams
      zeroParams_wellFormed [zeroImage] ⟨zeroImage_shape.1, zeroImage_shape.2⟩⟩

end Part5
